import Mathlib

/-!
Shallow embedding of the humans-card viewer core (src/viewer.ts, src/utils.ts,
src/presets.ts).  Numbers from the source are modelled as real numbers; the
JavaScript remainder operator `%` is modelled by `jsRem` (remainder with the
sign of the dividend, i.e. truncated division).  The imperative `Viewer` class
state is modelled by the explicit record `ViewerState`, and each event handler
or method becomes a state-transition function.  Collaborator-side effects
(camera position pushes, CSS class toggles, GPU disposal) are either recorded
as boolean fields or abstracted away when no claim depends on them.
-/

noncomputable section

/-- Truncation toward zero, as used by the JavaScript `%` operator. -/
def jsTrunc (x : ℝ) : ℤ := if 0 ≤ x then ⌊x⌋ else ⌈x⌉

/-- JavaScript remainder `a % b`: `a - b * trunc (a / b)`. -/
def jsRem (a b : ℝ) : ℝ := a - b * (jsTrunc (a / b) : ℝ)

/-- Embeds `Viewer.wrapAngle` (src/viewer.ts lines 375-381): reduce by the
JS remainder modulo `2π`, then pull values above `π` down by `2π`, then pull
values below `-π` up by `2π`.  The two `if` statements are sequential, so the
second one inspects the result of the first. -/
def wrapAngle (angle : ℝ) : ℝ :=
  if Real.pi < jsRem angle (Real.pi * 2) then
    if jsRem angle (Real.pi * 2) - Real.pi * 2 < -Real.pi then
      jsRem angle (Real.pi * 2) - Real.pi * 2 + Real.pi * 2
    else
      jsRem angle (Real.pi * 2) - Real.pi * 2
  else
    if jsRem angle (Real.pi * 2) < -Real.pi then
      jsRem angle (Real.pi * 2) + Real.pi * 2
    else
      jsRem angle (Real.pi * 2)

/-- Embeds `clamp` from src/utils.ts: `Math.min(max, Math.max(min, value))`. -/
def clamp (value lo hi : ℝ) : ℝ := min hi (max lo value)

/-- Embeds `lerp` from src/utils.ts: `a + (b - a) * t`. -/
def lerp (a b t : ℝ) : ℝ := a + (b - a) * t

/-- The quadratic ease-out `t * (2 - t)` inlined in `Viewer.updateSnap`. -/
def easeOut (t : ℝ) : ℝ := t * (2 - t)

lemma jsRem_lower_upper (a T : ℝ) (hT : 0 < T) : -T < jsRem a T ∧ jsRem a T < T := by
  have hTa : T * (a / T) = a := by field_simp
  unfold jsRem jsTrunc
  by_cases h : 0 ≤ a / T
  · rw [if_pos h]
    have h1 : ((⌊a / T⌋ : ℝ)) ≤ a / T := Int.floor_le _
    have h2 : a / T < (⌊a / T⌋ : ℝ) + 1 := Int.lt_floor_add_one _
    have h1' : T * ((⌊a / T⌋ : ℝ)) ≤ T * (a / T) := by
      exact mul_le_mul_of_nonneg_left h1 hT.le
    have h2' : T * (a / T) < T * ((⌊a / T⌋ : ℝ) + 1) := by
      exact mul_lt_mul_of_pos_left h2 hT
    constructor <;> nlinarith
  · rw [if_neg h]
    have h1 : a / T ≤ ((⌈a / T⌉ : ℝ)) := Int.le_ceil _
    have h2 : ((⌈a / T⌉ : ℝ)) < a / T + 1 := Int.ceil_lt_add_one _
    have h1' : T * (a / T) ≤ T * ((⌈a / T⌉ : ℝ)) := by
      exact mul_le_mul_of_nonneg_left h1 hT.le
    have h2' : T * ((⌈a / T⌉ : ℝ)) < T * (a / T + 1) := by
      exact mul_lt_mul_of_pos_left h2 hT
    constructor <;> nlinarith

lemma jsRem_eq_self (a T : ℝ) (hT : 0 < T) (h1 : -T < a) (h2 : a < T) :
    jsRem a T = a := by
  unfold jsRem jsTrunc
  by_cases h : 0 ≤ a / T
  · rw [if_pos h]
    have hfl : ⌊a / T⌋ = 0 := by
      have hlt : a / T < 1 := (div_lt_one hT).mpr h2
      rw [Int.floor_eq_zero_iff]
      exact ⟨h, hlt⟩
    rw [hfl]
    push_cast
    ring
  · rw [if_neg h]
    have hcl : ⌈a / T⌉ = 0 := by
      have hgt : (-1 : ℝ) < a / T := by
        rw [lt_div_iff₀ hT]
        linarith
      have hle : a / T ≤ 0 := le_of_lt (not_le.mp h)
      rw [Int.ceil_eq_zero_iff]
      exact ⟨hgt, hle⟩
    rw [hcl]
    push_cast
    ring

lemma wrapAngle_mem (a : ℝ) :
    -Real.pi ≤ wrapAngle a ∧ wrapAngle a ≤ Real.pi := by
  have hpi := Real.pi_pos
  have hT : (0 : ℝ) < Real.pi * 2 := by linarith
  obtain ⟨hl, hu⟩ := jsRem_lower_upper a (Real.pi * 2) hT
  unfold wrapAngle
  by_cases h1 : Real.pi < jsRem a (Real.pi * 2)
  · rw [if_pos h1, if_neg (by linarith : ¬(jsRem a (Real.pi * 2) - Real.pi * 2 < -Real.pi))]
    constructor <;> linarith
  · rw [if_neg h1]
    by_cases h2 : jsRem a (Real.pi * 2) < -Real.pi
    · rw [if_pos h2]
      constructor <;> linarith
    · rw [if_neg h2]
      constructor <;> linarith

lemma wrapAngle_eq_self (a : ℝ) (h1 : -Real.pi ≤ a) (h2 : a ≤ Real.pi) :
    wrapAngle a = a := by
  have hpi := Real.pi_pos
  have hT : (0 : ℝ) < Real.pi * 2 := by linarith
  unfold wrapAngle
  rw [jsRem_eq_self a (Real.pi * 2) hT (by linarith) (by linarith),
      if_neg (not_lt.mpr h2), if_neg (not_lt.mpr h1)]

lemma wrapAngle_idem (a : ℝ) : wrapAngle (wrapAngle a) = wrapAngle a := by
  obtain ⟨h1, h2⟩ := wrapAngle_mem a
  exact wrapAngle_eq_self _ h1 h2

lemma wrapAngle_of_gt_pi (a : ℝ) (h1 : Real.pi < a) (h2 : a < Real.pi * 2) :
    wrapAngle a = a - Real.pi * 2 := by
  have hpi := Real.pi_pos
  have hT : (0 : ℝ) < Real.pi * 2 := by linarith
  unfold wrapAngle
  rw [jsRem_eq_self a (Real.pi * 2) hT (by linarith) h2, if_pos h1,
      if_neg (by linarith : ¬(a - Real.pi * 2 < -Real.pi))]

lemma wrapAngle_neg_pi : wrapAngle (-Real.pi) = -Real.pi :=
  wrapAngle_eq_self _ le_rfl (by linarith [Real.pi_pos])

/-- Embeds the `Preset` type from src/types.ts. -/
structure Preset where
  name : String
  yaw : ℝ
  pitch : ℝ

/-- Embeds `DEFAULT_PRESETS` from src/presets.ts. -/
def DEFAULT_PRESETS : List Preset :=
  [⟨"front", 0, 0⟩, ⟨"back", Real.pi, 0⟩,
   ⟨"left", -(Real.pi / 2), 0⟩, ⟨"right", Real.pi / 2, 0⟩]

/-- Embeds a pointer event: `pointerId`, `clientX`, `clientY`. -/
structure PointerEvent where
  pointerId : Nat
  clientX : ℝ
  clientY : ℝ

/-- Materials are opaque references; we model them by natural numbers.  A
value of this type stands for the `THREE.Material | THREE.Material[]`
reference stored on a mesh, compared only by identity in the source. -/
abbrev Material := Nat

/-- One mesh node of the loaded model: its `uuid` and its currently assigned
`material` reference. -/
structure MeshNode where
  uuid : String
  material : Material
deriving DecidableEq

/-- Embeds the `snap` record field of `Viewer`. -/
@[ext]
structure SnapState where
  active : Bool
  startYaw : ℝ
  startPitch : ℝ
  targetYaw : ℝ
  targetPitch : ℝ
  startTime : ℝ
  duration : ℝ

/-- Association-list model of a JavaScript `Map`: lookup returns the value of
the first (unique) matching key. -/
def assocLookup {κ α : Type} [DecidableEq κ] (k : κ) : List (κ × α) → Option α
  | [] => none
  | (k₁, v) :: rest => if k₁ = k then some v else assocLookup k rest

/-- `Map.set`: update the entry in place when the key is present (preserving
insertion order), otherwise append a new entry at the end. -/
def mapSet {κ α : Type} [DecidableEq κ] (k : κ) (v : α) : List (κ × α) → List (κ × α)
  | [] => [(k, v)]
  | (k₁, v₁) :: rest => if k₁ = k then (k, v) :: rest else (k₁, v₁) :: mapSet k v rest

/-- `Map.delete`: drop the entry with the given key. -/
def mapDelete {κ α : Type} [DecidableEq κ] (k : κ) (l : List (κ × α)) : List (κ × α) :=
  l.filter (fun kv => kv.1 ≠ k)

/-- The instance state of the `Viewer` class (src/viewer.ts lines 28-79).
Graphics-collaborator objects are modelled by liveness booleans; the model
group keeps the list of mesh nodes with their current materials. -/
@[ext]
structure ViewerState where
  rendererAlive : Bool
  sceneAlive : Bool
  cameraAlive : Bool
  resizeObserverAlive : Bool
  listenersAttached : Bool
  animationHandle : Option Nat
  presets : List Preset
  currentYaw : ℝ
  currentPitch : ℝ
  distance : ℝ
  zoomEnabled : Bool
  currentVariant : Option String
  dragging : Bool
  pinchDistance : ℝ
  pointers : List (Nat × (ℝ × ℝ))
  hintHidden : Bool
  containerDragging : Bool
  snap : SnapState
  variantMaterialsKHR : List (String × List (String × Material))
  variantMaterialsByName : List (String × List (String × Material))
  originalMaterials : List (String × Material)
  modelGroup : Option (List MeshNode)

/-- Embeds `MIN_DISTANCE` (src/viewer.ts line 25). -/
def MIN_DISTANCE : ℝ := 1.8

/-- Embeds `MAX_DISTANCE` (src/viewer.ts line 26). -/
def MAX_DISTANCE : ℝ := 4.5

/-- Embeds `Viewer.distanceBetween`: `Math.hypot(dx, dy)`. -/
def distanceBetween (a b : ℝ × ℝ) : ℝ :=
  Real.sqrt ((a.1 - b.1) ^ 2 + (a.2 - b.2) ^ 2)

/-- Embeds `Viewer.updateDistance` (src/viewer.ts lines 351-357): store the
clamped distance.  The camera-position push is a collaborator effect outside
the modelled state. -/
def updateDistance (next : ℝ) (st : ViewerState) : ViewerState :=
  { st with distance := clamp next MIN_DISTANCE MAX_DISTANCE }

/-- Loop body of `Viewer.findNearestPreset`: replace the accumulator when the
new preset is strictly closer.  `minDist` starts at `Number.POSITIVE_INFINITY`,
modelled by `⊤ : WithTop ℝ`. -/
def presetDistance (yaw pitch : ℝ) (p : Preset) : ℝ :=
  Real.sqrt ((wrapAngle (yaw - p.yaw)) ^ 2 + (pitch - p.pitch) ^ 2)

/-- One iteration of the `for` loop in `Viewer.findNearestPreset`. -/
def nearestStep (yaw pitch : ℝ) (acc : Preset × WithTop ℝ) (preset : Preset) :
    Preset × WithTop ℝ :=
  if (presetDistance yaw pitch preset : WithTop ℝ) < acc.2 then
    (preset, (presetDistance yaw pitch preset : WithTop ℝ))
  else acc

/-- Embeds `Viewer.findNearestPreset` (src/viewer.ts lines 359-373): `null`
for an empty list, otherwise fold the strict-improvement loop over the whole
list starting from `presets[0]` and distance `+∞`. -/
def findNearestPreset (yaw pitch : ℝ) (presets : List Preset) : Option Preset :=
  match presets with
  | [] => none
  | p₀ :: _ => some ((presets.foldl (nearestStep yaw pitch) (p₀, (⊤ : WithTop ℝ))).1)

/-- Embeds `Viewer.startSnapTo` (src/viewer.ts lines 383-393); `now` stands
for `performance.now()`. -/
def startSnapTo (now yaw pitch : ℝ) (st : ViewerState) : ViewerState :=
  { st with snap :=
      { active := true
        startYaw := st.currentYaw
        startPitch := st.currentPitch
        targetYaw := yaw
        targetPitch := pitch
        startTime := now
        duration := 450 } }

/-- Embeds `Viewer.updateSnap` (src/viewer.ts lines 395-404); `now` stands
for `performance.now()`.  The model-rotation write goes to the graphics
collaborator and is not part of the modelled state. -/
def updateSnap (now : ℝ) (st : ViewerState) : ViewerState :=
  if st.snap.active = true then
    { st with
      currentYaw := lerp st.snap.startYaw st.snap.targetYaw
        (easeOut (clamp ((now - st.snap.startTime) / st.snap.duration) 0 1))
      currentPitch := lerp st.snap.startPitch st.snap.targetPitch
        (easeOut (clamp ((now - st.snap.startTime) / st.snap.duration) 0 1))
      snap := if 1 ≤ clamp ((now - st.snap.startTime) / st.snap.duration) 0 1 then
          { st.snap with active := false }
        else st.snap }
  else st

/-- The `size === 1` block of `Viewer.onPointerDown` (lines 286-291). -/
def downDragPhase (st : ViewerState) : ViewerState :=
  if st.pointers.length = 1 then
    { st with dragging := true
              snap := { st.snap with active := false }
              hintHidden := true
              containerDragging := true }
  else st

/-- The `size === 2` block of `Viewer.onPointerDown` (lines 293-296). -/
def downPinchPhase (st : ViewerState) : ViewerState :=
  if st.pointers.length = 2 then
    match st.pointers with
    | [(_, a), (_, b)] => { st with pinchDistance := distanceBetween a b }
    | _ => st
  else st

/-- Embeds `Viewer.onPointerDown` (src/viewer.ts lines 281-297): record the
sample, then run the two size-conditional blocks in order. -/
def onPointerDown (e : PointerEvent) (st : ViewerState) : ViewerState :=
  if st.rendererAlive = true then
    downPinchPhase (downDragPhase
      { st with pointers := mapSet e.pointerId (e.clientX, e.clientY) st.pointers })
  else st

/-- The single-pointer drag block of `Viewer.onPointerMove` (lines 307-315):
yaw accumulates `dx * 0.005` without wrapping; pitch is wrapped. -/
def moveDragPhase (e : PointerEvent) (prev : ℝ × ℝ) (st : ViewerState) : ViewerState :=
  if st.pointers.length = 1 ∧ st.dragging = true then
    { st with
      currentYaw := st.currentYaw + (e.clientX - prev.1) * 0.005
      currentPitch := wrapAngle (st.currentPitch + (e.clientY - prev.2) * 0.005) }
  else st

/-- The two-pointer pinch block of `Viewer.onPointerMove` (lines 317-325). -/
def movePinchPhase (st : ViewerState) : ViewerState :=
  if st.pointers.length = 2 ∧ st.zoomEnabled = true then
    match st.pointers with
    | [(_, a), (_, b)] =>
      if 0.5 < |distanceBetween a b - st.pinchDistance| then
        { updateDistance (st.distance - (distanceBetween a b - st.pinchDistance) * 0.01) st with
            pinchDistance := distanceBetween a b }
      else st
    | _ => st
  else st

/-- Embeds `Viewer.onPointerMove` (src/viewer.ts lines 299-326): unknown ids
are ignored; otherwise update the sample and run the drag block then the
pinch block. -/
def onPointerMove (e : PointerEvent) (st : ViewerState) : ViewerState :=
  if st.rendererAlive = true then
    match assocLookup e.pointerId st.pointers with
    | none => st
    | some prev =>
      movePinchPhase (moveDragPhase e prev
        { st with pointers := mapSet e.pointerId (e.clientX, e.clientY) st.pointers })
  else st

/-- The release block of `Viewer.onPointerUp` (lines 331-336): when the
tracked count reached zero during a drag, exit drag mode, clear the dragging
visual state, and snap toward the nearest preset if one exists. -/
def upSnapPhase (now : ℝ) (st : ViewerState) : ViewerState :=
  if st.pointers.length = 0 ∧ st.dragging = true then
    match findNearestPreset st.currentYaw st.currentPitch st.presets with
    | some preset =>
      startSnapTo now preset.yaw preset.pitch
        { st with dragging := false, containerDragging := false }
    | none => { st with dragging := false, containerDragging := false }
  else st

/-- Embeds `Viewer.onPointerUp` / `onPointerCancel` (src/viewer.ts lines
328-337). -/
def onPointerUp (now : ℝ) (pointerId : Nat) (st : ViewerState) : ViewerState :=
  if st.rendererAlive = true then
    upSnapPhase now { st with pointers := mapDelete pointerId st.pointers }
  else st

/-- Drops leading whitespace characters from a character list. -/
def dropLeadingWs : List Char → List Char
  | [] => []
  | c :: cs => if c.isWhitespace then dropLeadingWs cs else c :: cs

/-- Models JavaScript `String.prototype.trim`: remove whitespace from both
ends of the string. -/
def jsTrim (s : String) : String :=
  ⟨(dropLeadingWs ((dropLeadingWs s.data).reverse)).reverse⟩

/-- Embeds `Viewer.restoreOriginalMaterials` (src/viewer.ts lines 585-592):
assign each node the captured original when one exists, else leave it. -/
def restoreOriginalMaterials (st : ViewerState) : ViewerState :=
  match st.modelGroup with
  | none => st
  | some nodes =>
    { st with modelGroup := some (nodes.map (fun n =>
        match assocLookup n.uuid st.originalMaterials with
        | some original => { n with material := original }
        | none => n)) }

/-- Embeds `Viewer.applyVariantFromKHR` (src/viewer.ts lines 556-570): assign
the variant's substitute when present, else fall back to the node's original
material when one was captured. -/
def applyVariantFromKHR (name : String) (st : ViewerState) : ViewerState :=
  match st.modelGroup with
  | none => st
  | some nodes =>
    match assocLookup name st.variantMaterialsKHR with
    | none => st
    | some variantMap =>
      { st with modelGroup := some (nodes.map (fun n =>
          match assocLookup n.uuid variantMap with
          | some material => { n with material := material }
          | none =>
            match assocLookup n.uuid st.originalMaterials with
            | some original => { n with material := original }
            | none => n)) }

/-- Embeds `Viewer.applyVariantFromName` (src/viewer.ts lines 572-583): assign
the variant's substitute when present, else leave the node untouched. -/
def applyVariantFromName (name : String) (st : ViewerState) : ViewerState :=
  match st.modelGroup with
  | none => st
  | some nodes =>
    match assocLookup name st.variantMaterialsByName with
    | none => st
    | some variantMap =>
      { st with modelGroup := some (nodes.map (fun n =>
          match assocLookup n.uuid variantMap with
          | some material => { n with material := material }
          | none => n)) }

/-- Embeds `Viewer.setVariant` (src/viewer.ts lines 164-187). -/
def setVariant (name : String) (st : ViewerState) : ViewerState :=
  match st.modelGroup with
  | none => st
  | some _ =>
    if (jsTrim name).length = 0 then
      restoreOriginalMaterials { st with currentVariant := none }
    else if (assocLookup (jsTrim name) st.variantMaterialsKHR).isSome then
      { applyVariantFromKHR (jsTrim name) st with currentVariant := some (jsTrim name) }
    else if (assocLookup (jsTrim name) st.variantMaterialsByName).isSome then
      { applyVariantFromName (jsTrim name) st with currentVariant := some (jsTrim name) }
    else
      restoreOriginalMaterials { st with currentVariant := none }

/-- The record returned by `Viewer.getState` (src/viewer.ts lines 189-203). -/
structure PublicState where
  preset : Option String
  variant : Option String
  yaw : ℝ
  pitch : ℝ
  distance : ℝ

/-- Embeds `Viewer.getState`. -/
def getState (st : ViewerState) : PublicState :=
  { preset := (findNearestPreset st.currentYaw st.currentPitch st.presets).map Preset.name
    variant := st.currentVariant
    yaw := st.currentYaw
    pitch := st.currentPitch
    distance := st.distance }

/-- Embeds `Viewer.stopRenderLoop` (src/viewer.ts lines 423-428): cancel the
scheduled frame only when a handle is present. -/
def stopRenderLoop (st : ViewerState) : ViewerState :=
  match st.animationHandle with
  | some _ => { st with animationHandle := none }
  | none => st

/-- Embeds `Viewer.dispose` (src/viewer.ts lines 205-219): stop the render
loop, disconnect the resize observer, detach the pointer/wheel listeners, and
null out the renderer, scene, camera and model group. -/
def dispose (st : ViewerState) : ViewerState :=
  { stopRenderLoop st with
      resizeObserverAlive := false
      listenersAttached := false
      rendererAlive := false
      sceneAlive := false
      cameraAlive := false
      modelGroup := none }

/-- A fully initialised viewer instance with no model loaded, used as a
concrete input for witnesses. -/
def baseState : ViewerState where
  rendererAlive := true
  sceneAlive := true
  cameraAlive := true
  resizeObserverAlive := true
  listenersAttached := true
  animationHandle := some 1
  presets := DEFAULT_PRESETS
  currentYaw := 0
  currentPitch := 0
  distance := 2.8
  zoomEnabled := true
  currentVariant := none
  dragging := false
  pinchDistance := 0
  pointers := []
  hintHidden := false
  containerDragging := false
  snap := ⟨false, 0, 0, 0, 0, 0, 450⟩
  variantMaterialsKHR := []
  variantMaterialsByName := []
  originalMaterials := []
  modelGroup := none

lemma stopRenderLoop_eq (st : ViewerState) :
    stopRenderLoop st = { st with animationHandle := none } := by
  cases h : st.animationHandle with
  | some n => simp [stopRenderLoop, h]
  | none =>
    simp only [stopRenderLoop, h]
    ext <;> simp [h]

/-- C3 counterexample: the claim puts `wrap(a)` in the half-open interval
`(−π, π]` for every real `a`, but at `a = −π` the code returns `−π` itself:
`(−π) % 2π = −π`, and neither boundary correction fires because the two
comparisons are strict. -/
theorem wrap_angle_neg_pi_cex :
    wrapAngle (-Real.pi) = -Real.pi ∧
    ¬(-Real.pi < wrapAngle (-Real.pi) ∧ wrapAngle (-Real.pi) ≤ Real.pi) := by
  refine ⟨wrapAngle_neg_pi, ?_⟩
  rintro ⟨h, -⟩
  rw [wrapAngle_neg_pi] at h
  exact lt_irrefl _ h

/-- C3 (amended): `wrap` reduces its argument by an integer multiple of `2π`
into the closed interval `[−π, π]` (the lower endpoint `−π` is attainable, so
the interval is closed on both sides, not half-open), and `wrap` is
idempotent. -/
theorem wrap_angle_range_idem (a : ℝ) :
    (∃ k : ℤ, wrapAngle a = a - Real.pi * 2 * (k : ℝ)) ∧
    -Real.pi ≤ wrapAngle a ∧ wrapAngle a ≤ Real.pi ∧
    wrapAngle (wrapAngle a) = wrapAngle a := by
  refine ⟨?_, (wrapAngle_mem a).1, (wrapAngle_mem a).2, wrapAngle_idem a⟩
  unfold wrapAngle jsRem
  by_cases h1 : Real.pi < a - Real.pi * 2 * (jsTrunc (a / (Real.pi * 2)) : ℝ)
  · rw [if_pos h1]
    by_cases h2 : a - Real.pi * 2 * (jsTrunc (a / (Real.pi * 2)) : ℝ) - Real.pi * 2 < -Real.pi
    · rw [if_pos h2]
      exact ⟨jsTrunc (a / (Real.pi * 2)), by ring⟩
    · rw [if_neg h2]
      exact ⟨jsTrunc (a / (Real.pi * 2)) + 1, by push_cast; ring⟩
  · rw [if_neg h1]
    by_cases h2 : a - Real.pi * 2 * (jsTrunc (a / (Real.pi * 2)) : ℝ) < -Real.pi
    · rw [if_pos h2]
      exact ⟨jsTrunc (a / (Real.pi * 2)) - 1, by push_cast; ring⟩
    · rw [if_neg h2]
      exact ⟨jsTrunc (a / (Real.pi * 2)), by ring⟩

/-- C8: `updateDistance` stores `clamp(next, 1.8, 4.5)`, so the stored
distance always lies in `[1.8, 4.5]`; in particular `1.0` clamps to `1.8`
and `10` clamps to `4.5`. -/
theorem update_distance_clamps (st : ViewerState) (next : ℝ) :
    (updateDistance next st).distance = clamp next MIN_DISTANCE MAX_DISTANCE ∧
    MIN_DISTANCE ≤ (updateDistance next st).distance ∧
    (updateDistance next st).distance ≤ MAX_DISTANCE ∧
    (updateDistance 1 st).distance = 1.8 ∧
    (updateDistance 10 st).distance = 4.5 := by
  refine ⟨rfl, ?_, ?_, ?_, ?_⟩
  · show MIN_DISTANCE ≤ clamp next MIN_DISTANCE MAX_DISTANCE
    unfold clamp MIN_DISTANCE MAX_DISTANCE
    exact le_min (by norm_num) (le_max_left _ _)
  · show clamp next MIN_DISTANCE MAX_DISTANCE ≤ MAX_DISTANCE
    unfold clamp
    exact min_le_left _ _
  · show clamp 1 MIN_DISTANCE MAX_DISTANCE = 1.8
    unfold clamp MIN_DISTANCE MAX_DISTANCE
    rw [max_eq_left (by norm_num), min_eq_right (by norm_num)]
  · show clamp 10 MIN_DISTANCE MAX_DISTANCE = 4.5
    unfold clamp MIN_DISTANCE MAX_DISTANCE
    rw [max_eq_right (by norm_num), min_eq_left (by norm_num)]

/-- C9: `dispose` is idempotent: a second call changes nothing, and after
either call the render loop handle is cancelled, the listeners are detached
and the renderer is released, so every subsequent handler is a no-op. -/
theorem dispose_idempotent (st : ViewerState) :
    dispose (dispose st) = dispose st ∧
    (dispose st).animationHandle = none ∧
    (dispose (dispose st)).animationHandle = none ∧
    (dispose st).rendererAlive = false ∧
    (dispose st).listenersAttached = false := by
  have h : ∀ s : ViewerState, dispose s =
      { s with animationHandle := none
               resizeObserverAlive := false
               listenersAttached := false
               rendererAlive := false
               sceneAlive := false
               cameraAlive := false
               modelGroup := none } := by
    intro s
    unfold dispose
    rw [stopRenderLoop_eq]
  simp [h]

/-- C10: when no model group is present, `setVariant` returns on its first
line for every name, so the whole viewer state — in particular the variant
marker reported by `getState` and both variant tables — is unchanged. -/
theorem set_variant_no_model_noop (st : ViewerState) (name : String)
    (h : st.modelGroup = none) :
    setVariant name st = st ∧
    (getState (setVariant name st)).variant = (getState st).variant ∧
    (setVariant name st).variantMaterialsKHR = st.variantMaterialsKHR ∧
    (setVariant name st).variantMaterialsByName = st.variantMaterialsByName := by
  have hs : setVariant name st = st := by
    unfold setVariant
    rw [h]
  exact ⟨hs, by rw [hs], by rw [hs], by rw [hs]⟩

/-- C10 witness: the no-model no-op at a concrete state, both for the blank
name and for an arbitrary name. -/
theorem set_variant_no_model_noop_witness :
    baseState.modelGroup = none ∧
    setVariant "" baseState = baseState ∧
    setVariant "Gold" baseState = baseState := by
  refine ⟨rfl, ?_, ?_⟩
  · exact (set_variant_no_model_noop baseState "" rfl).1
  · exact (set_variant_no_model_noop baseState "Gold" rfl).1

/-- C5: `updateSnap` is a no-op when idle; when active it interpolates yaw
and pitch independently by the eased clamped progress and goes idle exactly
when the clamped progress reaches `1`; with the 450 ms duration, at
`now = start` the orientation is unchanged and at `now ≥ start + duration` it
equals exactly the target; the ease satisfies `ease(0)=0`, `ease(1)=1` and is
monotone non-decreasing on `[0, 1]`. -/
theorem snap_tick_spec (st : ViewerState) (now : ℝ) :
    (st.snap.active = false → updateSnap now st = st) ∧
    (st.snap.active = true →
      (updateSnap now st).currentYaw =
        lerp st.snap.startYaw st.snap.targetYaw
          (easeOut (clamp ((now - st.snap.startTime) / st.snap.duration) 0 1)) ∧
      (updateSnap now st).currentPitch =
        lerp st.snap.startPitch st.snap.targetPitch
          (easeOut (clamp ((now - st.snap.startTime) / st.snap.duration) 0 1)) ∧
      ((updateSnap now st).snap.active = false ↔
        1 ≤ clamp ((now - st.snap.startTime) / st.snap.duration) 0 1)) ∧
    (st.snap.active = true → st.snap.duration = 450 → now = st.snap.startTime →
      (updateSnap now st).currentYaw = st.snap.startYaw ∧
      (updateSnap now st).currentPitch = st.snap.startPitch) ∧
    (st.snap.active = true → st.snap.duration = 450 →
      st.snap.startTime + st.snap.duration ≤ now →
      (updateSnap now st).currentYaw = st.snap.targetYaw ∧
      (updateSnap now st).currentPitch = st.snap.targetPitch) ∧
    (easeOut 0 = 0 ∧ easeOut 1 = 1 ∧
      ∀ t₁ t₂ : ℝ, 0 ≤ t₁ → t₁ ≤ t₂ → t₂ ≤ 1 → easeOut t₁ ≤ easeOut t₂) := by
  refine ⟨?_, ?_, ?_, ?_, ?_⟩
  · intro h
    simp [updateSnap, h]
  · intro h
    refine ⟨by simp [updateSnap, h], by simp [updateSnap, h], ?_⟩
    by_cases hc : 1 ≤ clamp ((now - st.snap.startTime) / st.snap.duration) 0 1
    · simp [updateSnap, h, hc]
    · simp [updateSnap, h, hc]
  · intro h hdur hnow
    have hc : clamp ((now - st.snap.startTime) / st.snap.duration) 0 1 = 0 := by
      rw [hnow, hdur]
      norm_num [clamp]
    constructor <;> · simp [updateSnap, h, hc, easeOut, lerp]
  · intro h hdur hle
    have hc : clamp ((now - st.snap.startTime) / st.snap.duration) 0 1 = 1 := by
      rw [hdur] at hle ⊢
      have h1 : (1 : ℝ) ≤ (now - st.snap.startTime) / 450 := by
        rw [le_div_iff₀ (by norm_num : (0 : ℝ) < 450)]
        linarith
      unfold clamp
      rw [max_eq_right (by linarith : (0 : ℝ) ≤ (now - st.snap.startTime) / 450),
          min_eq_left h1]
    constructor <;> · simp [updateSnap, h, hc, easeOut, lerp]; ring
  · refine ⟨by norm_num [easeOut], by norm_num [easeOut], ?_⟩
    intro t₁ t₂ h0 h12 h21
    unfold easeOut
    nlinarith

/-- A viewer with an in-flight snap from `(0, 0)` toward `(1, 2)` started at
time `0`. -/
def snapActiveState : ViewerState :=
  { baseState with snap := ⟨true, 0, 0, 1, 2, 0, 450⟩ }

/-- C5 witness: at `now = 450` the orientation is exactly the target `(1, 2)`
and the animation has gone idle; at `now = 0` the orientation is unchanged. -/
theorem snap_tick_spec_witness :
    (updateSnap 450 snapActiveState).currentYaw = 1 ∧
    (updateSnap 450 snapActiveState).currentPitch = 2 ∧
    (updateSnap 0 snapActiveState).currentYaw = 0 ∧
    (updateSnap 0 snapActiveState).currentPitch = 0 := by
  have hend := (snap_tick_spec snapActiveState 450).2.2.2.1 rfl rfl
    (show (0 : ℝ) + 450 ≤ 450 by norm_num)
  have hstart := (snap_tick_spec snapActiveState 0).2.2.1 rfl rfl rfl
  exact ⟨hend.1, hend.2, hstart.1, hstart.2⟩

lemma assocLookup_mapSet_length {κ α : Type} [DecidableEq κ] (k : κ) (v w : α)
    (l : List (κ × α)) (h : assocLookup k l = some w) :
    (mapSet k v l).length = l.length := by
  induction l with
  | nil => simp [assocLookup] at h
  | cons kv rest ih =>
    obtain ⟨k₁, v₁⟩ := kv
    by_cases hk : k₁ = k
    · simp [mapSet, hk]
    · simp only [assocLookup, if_neg hk] at h
      simp [mapSet, hk, ih h]

lemma drag_move_eq (st : ViewerState) (e : PointerEvent) (prev : ℝ × ℝ)
    (halive : st.rendererAlive = true)
    (hlook : assocLookup e.pointerId st.pointers = some prev)
    (hlen : st.pointers.length = 1)
    (hdrag : st.dragging = true) :
    onPointerMove e st =
      { st with pointers := mapSet e.pointerId (e.clientX, e.clientY) st.pointers
                currentYaw := st.currentYaw + (e.clientX - prev.1) * 0.005
                currentPitch := wrapAngle (st.currentPitch + (e.clientY - prev.2) * 0.005) } := by
  have hlen' : (mapSet e.pointerId (e.clientX, e.clientY) st.pointers).length = 1 := by
    rw [assocLookup_mapSet_length e.pointerId (e.clientX, e.clientY) prev st.pointers hlook,
        hlen]
  simp [onPointerMove, halive, hlook, moveDragPhase, movePinchPhase, hlen', hdrag]

/-- The viewer mid-drag: one tracked pointer with id `0` at the origin, drag
mode on, orientation `(0, 0)`. -/
def dragState : ViewerState :=
  { baseState with pointers := [(0, (0, 0))], dragging := true }

/-- C1 counterexample: a single-pointer drag move of `dx = 2000, dy = −200π`
from orientation `(0, 0)` leaves yaw at `10 ∉ (−π, π]` — the source
accumulates `yaw += dx·0.005` without wrapping — and wraps pitch to `−π`,
which is also outside the half-open interval `(−π, π]`. -/
theorem drag_move_yaw_unwrapped_cex :
    (onPointerMove ⟨0, 2000, -(200 * Real.pi)⟩ dragState).currentYaw = 10 ∧
    ¬((onPointerMove ⟨0, 2000, -(200 * Real.pi)⟩ dragState).currentYaw ≤ Real.pi) ∧
    (onPointerMove ⟨0, 2000, -(200 * Real.pi)⟩ dragState).currentPitch = -Real.pi ∧
    ¬(-Real.pi < (onPointerMove ⟨0, 2000, -(200 * Real.pi)⟩ dragState).currentPitch) := by
  have heq := drag_move_eq dragState ⟨0, 2000, -(200 * Real.pi)⟩ (0, 0) rfl rfl rfl rfl
  have hyaw : (onPointerMove ⟨0, 2000, -(200 * Real.pi)⟩ dragState).currentYaw = 10 := by
    rw [heq]
    show (0 : ℝ) + (2000 - 0) * 0.005 = 10
    norm_num
  have hpitch :
      (onPointerMove ⟨0, 2000, -(200 * Real.pi)⟩ dragState).currentPitch = -Real.pi := by
    rw [heq]
    show wrapAngle ((0 : ℝ) + (-(200 * Real.pi) - 0) * 0.005) = -Real.pi
    rw [show (0 : ℝ) + (-(200 * Real.pi) - 0) * 0.005 = -Real.pi by ring]
    exact wrapAngle_neg_pi
  refine ⟨hyaw, ?_, hpitch, ?_⟩
  · rw [hyaw]
    intro hle
    linarith [Real.pi_lt_d2]
  · rw [hpitch]
    exact lt_irrefl _

/-- C1 (amended): on a single-pointer drag move the yaw increment `dx·0.005`
is accumulated without wrapping (so yaw can leave `(−π, π]`), while pitch is
wrapped, landing in the closed interval `[−π, π]`. -/
theorem drag_move_amended (st : ViewerState) (e : PointerEvent) (prev : ℝ × ℝ)
    (halive : st.rendererAlive = true)
    (hlook : assocLookup e.pointerId st.pointers = some prev)
    (hlen : st.pointers.length = 1)
    (hdrag : st.dragging = true) :
    (onPointerMove e st).currentYaw = st.currentYaw + (e.clientX - prev.1) * 0.005 ∧
    (onPointerMove e st).currentPitch =
      wrapAngle (st.currentPitch + (e.clientY - prev.2) * 0.005) ∧
    -Real.pi ≤ (onPointerMove e st).currentPitch ∧
    (onPointerMove e st).currentPitch ≤ Real.pi := by
  rw [drag_move_eq st e prev halive hlook hlen hdrag]
  exact ⟨rfl, rfl, (wrapAngle_mem _).1, (wrapAngle_mem _).2⟩

/-- C1 witness: the drag-move characterisation applied to a concrete
one-pointer drag state and a small move. -/
theorem drag_move_amended_witness :
    (onPointerMove ⟨0, 1, 1⟩ dragState).currentYaw = 0 + (1 - 0) * 0.005 ∧
    -Real.pi ≤ (onPointerMove ⟨0, 1, 1⟩ dragState).currentPitch ∧
    (onPointerMove ⟨0, 1, 1⟩ dragState).currentPitch ≤ Real.pi := by
  have h := drag_move_amended dragState ⟨0, 1, 1⟩ (0, 0) rfl rfl rfl rfl
  exact ⟨h.1, h.2.2.1, h.2.2.2⟩

/-- A loaded single-node model: node `n0` with original material `0`, a
structured (KHR) variant table entry `"Gold" → (n0 → 1)`. -/
def exVariantState : ViewerState :=
  { baseState with
      modelGroup := some [⟨"n0", 0⟩]
      originalMaterials := [("n0", 0)]
      variantMaterialsKHR := [("Gold", [("n0", 1)])] }

/-- The same single-node model with, in addition, a naming-convention table
entry `"Silver" → (n0 → 2)`. -/
def exVariantState2 : ViewerState :=
  { baseState with
      modelGroup := some [⟨"n0", 0⟩]
      originalMaterials := [("n0", 0)]
      variantMaterialsKHR := [("Gold", [("n0", 1)])]
      variantMaterialsByName := [("Silver", [("n0", 2)])] }

/-- C2: `setVariant` with a name in the structured (KHR) table assigns each
node the table's substitute when present and otherwise falls back to that
node's captured original material; with a name only in the naming-convention
table it assigns the substitute when present and otherwise leaves the node's
current material untouched — the asymmetric fallback between the schemes. -/
theorem set_variant_asymmetric_fallback (st : ViewerState) (name : String)
    (nodes : List MeshNode) (h : st.modelGroup = some nodes)
    (hnb : (jsTrim name).length ≠ 0) :
    (∀ vm, assocLookup (jsTrim name) st.variantMaterialsKHR = some vm →
      (setVariant name st).currentVariant = some (jsTrim name) ∧
      ∃ nodes₂, (setVariant name st).modelGroup = some nodes₂ ∧
        nodes₂.length = nodes.length ∧
        ∀ (i : Nat) (n : MeshNode), nodes[i]? = some n →
          ∃ n₂ : MeshNode, nodes₂[i]? = some n₂ ∧ n₂.uuid = n.uuid ∧
            (∀ m, assocLookup n.uuid vm = some m → n₂.material = m) ∧
            (assocLookup n.uuid vm = none →
              (∀ o, assocLookup n.uuid st.originalMaterials = some o →
                n₂.material = o) ∧
              (assocLookup n.uuid st.originalMaterials = none →
                n₂.material = n.material))) ∧
    (∀ vm, assocLookup (jsTrim name) st.variantMaterialsKHR = none →
      assocLookup (jsTrim name) st.variantMaterialsByName = some vm →
      (setVariant name st).currentVariant = some (jsTrim name) ∧
      ∃ nodes₂, (setVariant name st).modelGroup = some nodes₂ ∧
        nodes₂.length = nodes.length ∧
        ∀ (i : Nat) (n : MeshNode), nodes[i]? = some n →
          ∃ n₂ : MeshNode, nodes₂[i]? = some n₂ ∧ n₂.uuid = n.uuid ∧
            (∀ m, assocLookup n.uuid vm = some m → n₂.material = m) ∧
            (assocLookup n.uuid vm = none → n₂.material = n.material)) := by
  constructor
  · intro vm hvm
    have hred : setVariant name st =
        { applyVariantFromKHR (jsTrim name) st with currentVariant := some (jsTrim name) } := by
      unfold setVariant
      rw [h, if_neg hnb, hvm]
      simp
    have happ : applyVariantFromKHR (jsTrim name) st =
        { st with modelGroup := some (nodes.map (fun n =>
            match assocLookup n.uuid vm with
            | some material => { n with material := material }
            | none =>
              match assocLookup n.uuid st.originalMaterials with
              | some original => { n with material := original }
              | none => n)) } := by
      unfold applyVariantFromKHR
      rw [h, hvm]
    rw [hred, happ]
    refine ⟨rfl, _, rfl, by simp, ?_⟩
    intro i n hni
    refine ⟨(fun n => match assocLookup n.uuid vm with
        | some material => ({ n with material := material } : MeshNode)
        | none =>
          match assocLookup n.uuid st.originalMaterials with
          | some original => { n with material := original }
          | none => n) n, ?_, ?_, ?_, ?_⟩
    · simp [List.getElem?_map, hni]
    · cases hvm' : assocLookup n.uuid vm with
      | some m => simp [hvm']
      | none =>
        cases ho : assocLookup n.uuid st.originalMaterials with
        | some o => simp [hvm', ho]
        | none => simp [hvm', ho]
    · intro m hm
      simp [hm]
    · intro hnone
      constructor
      · intro o ho
        simp [hnone, ho]
      · intro ho
        simp [hnone, ho]
  · intro vm hk hvm
    have hred : setVariant name st =
        { applyVariantFromName (jsTrim name) st with currentVariant := some (jsTrim name) } := by
      unfold setVariant
      rw [h, if_neg hnb, hk, hvm]
      simp
    have happ : applyVariantFromName (jsTrim name) st =
        { st with modelGroup := some (nodes.map (fun n =>
            match assocLookup n.uuid vm with
            | some material => { n with material := material }
            | none => n)) } := by
      unfold applyVariantFromName
      rw [h, hvm]
    rw [hred, happ]
    refine ⟨rfl, _, rfl, by simp, ?_⟩
    intro i n hni
    refine ⟨(fun n => match assocLookup n.uuid vm with
        | some material => ({ n with material := material } : MeshNode)
        | none => n) n, ?_, ?_, ?_, ?_⟩
    · simp [List.getElem?_map, hni]
    · cases hvm' : assocLookup n.uuid vm with
      | some m => simp [hvm']
      | none => simp [hvm']
    · intro m hm
      simp [hm]
    · intro hnone
      simp [hnone]

/-- C2 witness: on the two-table single-node model, the structured variant
`"Gold"` assigns material `1` and the naming-convention variant `"Silver"`
assigns material `2`. -/
theorem set_variant_asymmetric_fallback_witness :
    ((setVariant "Gold" exVariantState2).currentVariant = some "Gold" ∧
      ∃ nodes₂ n₂, (setVariant "Gold" exVariantState2).modelGroup = some nodes₂ ∧
        nodes₂[0]? = some n₂ ∧ n₂.material = 1) ∧
    ((setVariant "Silver" exVariantState2).currentVariant = some "Silver" ∧
      ∃ nodes₂ n₂, (setVariant "Silver" exVariantState2).modelGroup = some nodes₂ ∧
        nodes₂[0]? = some n₂ ∧ n₂.material = 2) := by
  constructor
  · have h := (set_variant_asymmetric_fallback exVariantState2 "Gold" [⟨"n0", 0⟩]
      rfl (by decide)).1 [("n0", 1)] rfl
    obtain ⟨hv, nodes₂, hmg, -, hnode⟩ := h
    obtain ⟨n₂, hn₂, -, hsub, -⟩ := hnode 0 ⟨"n0", 0⟩ rfl
    exact ⟨hv, nodes₂, n₂, hmg, hn₂, hsub 1 rfl⟩
  · have h := (set_variant_asymmetric_fallback exVariantState2 "Silver" [⟨"n0", 0⟩]
      rfl (by decide)).2 [("n0", 2)] rfl rfl
    obtain ⟨hv, nodes₂, hmg, -, hnode⟩ := h
    obtain ⟨n₂, hn₂, -, hsub, -⟩ := hnode 0 ⟨"n0", 0⟩ rfl
    exact ⟨hv, nodes₂, n₂, hmg, hn₂, hsub 2 rfl⟩

/-- C6: `setVariant` with a blank name, or with a name matched by neither
variant table, restores every node's original material and clears the
current-variant marker (so `getState` reports no variant), raising no error;
on the single-node example, `"Gold"` assigns material `1` while `""` and
`"Unknown"` both restore material `0`. -/
theorem set_variant_unmatched_restores (st : ViewerState) (name : String)
    (nodes : List MeshNode) (h : st.modelGroup = some nodes)
    (hname : (jsTrim name).length = 0 ∨
      (assocLookup (jsTrim name) st.variantMaterialsKHR = none ∧
       assocLookup (jsTrim name) st.variantMaterialsByName = none)) :
    (setVariant name st).currentVariant = none ∧
    (getState (setVariant name st)).variant = none ∧
    (setVariant name st).modelGroup = some (nodes.map (fun n =>
      match assocLookup n.uuid st.originalMaterials with
      | some original => { n with material := original }
      | none => n)) ∧
    (setVariant "Gold" exVariantState).modelGroup = some [⟨"n0", 1⟩] ∧
    (setVariant "" exVariantState).modelGroup = some [⟨"n0", 0⟩] ∧
    (setVariant "Unknown" exVariantState).modelGroup = some [⟨"n0", 0⟩] ∧
    (setVariant "" exVariantState).currentVariant = none ∧
    (setVariant "Unknown" exVariantState).currentVariant = none := by
  have hmain : (setVariant name st).currentVariant = none ∧
      (setVariant name st).modelGroup = some (nodes.map (fun n =>
        match assocLookup n.uuid st.originalMaterials with
        | some original => { n with material := original }
        | none => n)) := by
    by_cases hb : (jsTrim name).length = 0
    · unfold setVariant
      rw [h, if_pos hb]
      unfold restoreOriginalMaterials
      simp [h]
    · rcases hname with hb' | ⟨hk, hn⟩
      · exact absurd hb' hb
      · unfold setVariant
        rw [h, if_neg hb, hk, hn]
        unfold restoreOriginalMaterials
        simp [h]
  refine ⟨hmain.1, hmain.1, hmain.2, ?_, ?_, ?_, ?_, ?_⟩ <;> rfl

/-- C6 witness: the restore path at the concrete single-node model with the
unmatched name `"Unknown"`. -/
theorem set_variant_unmatched_restores_witness :
    (setVariant "Unknown" exVariantState).currentVariant = none ∧
    (getState (setVariant "Unknown" exVariantState)).variant = none := by
  have h := set_variant_unmatched_restores exVariantState "Unknown" [⟨"n0", 0⟩]
    rfl (Or.inr ⟨rfl, rfl⟩)
  exact ⟨h.1, h.2.1⟩

lemma findNearestPreset_nonempty (yaw pitch : ℝ) (presets : List Preset)
    (h : presets ≠ []) : ∃ p, findNearestPreset yaw pitch presets = some p := by
  cases presets with
  | nil => exact absurd rfl h
  | cons p₀ rest => exact ⟨_, rfl⟩

lemma upSnapPhase_eq (s : ViewerState) (now : ℝ)
    (h0 : s.pointers.length = 0) (hd : s.dragging = true) :
    (s.presets = [] →
      upSnapPhase now s = { s with dragging := false, containerDragging := false }) ∧
    (∀ p, findNearestPreset s.currentYaw s.currentPitch s.presets = some p →
      upSnapPhase now s =
        startSnapTo now p.yaw p.pitch
          { s with dragging := false, containerDragging := false }) := by
  constructor
  · intro hp
    unfold upSnapPhase
    rw [if_pos ⟨h0, hd⟩,
        show findNearestPreset s.currentYaw s.currentPitch s.presets = none from by
          rw [hp]
          rfl]
  · intro p hp
    unfold upSnapPhase
    rw [if_pos ⟨h0, hd⟩, hp]

lemma downPinchPhase_snap (s : ViewerState) : (downPinchPhase s).snap = s.snap := by
  unfold downPinchPhase
  split
  · split <;> rfl
  · rfl

/-- C7: releasing one of two tracked pointers leaves exactly one pointer
tracked and does not touch the snap state; only when the tracked count
reaches zero with drag mode on does the handler exit drag mode, clear the
dragging visual state, and start a snap toward the nearest preset (skipped
precisely when the preset list is empty); pointer-down never starts a
snap. -/
theorem pointer_release_snap_policy (st : ViewerState) (now : ℝ) (pid : Nat)
    (halive : st.rendererAlive = true) :
    (∀ a b : Nat × (ℝ × ℝ), st.pointers = [a, b] → a.1 ≠ b.1 →
      (pid = a.1 ∨ pid = b.1) →
      (onPointerUp now pid st).pointers.length = 1 ∧
      (onPointerUp now pid st).snap = st.snap ∧
      (onPointerUp now pid st).dragging = st.dragging) ∧
    ((mapDelete pid st.pointers).length = 0 → st.dragging = true →
      (onPointerUp now pid st).dragging = false ∧
      (onPointerUp now pid st).containerDragging = false ∧
      (st.presets = [] → (onPointerUp now pid st).snap = st.snap) ∧
      (st.presets ≠ [] →
        ∃ p, findNearestPreset st.currentYaw st.currentPitch st.presets = some p ∧
          (onPointerUp now pid st).snap =
            ⟨true, st.currentYaw, st.currentPitch, p.yaw, p.pitch, now, 450⟩)) ∧
    (¬((mapDelete pid st.pointers).length = 0 ∧ st.dragging = true) →
      (onPointerUp now pid st).snap = st.snap ∧
      (onPointerUp now pid st).dragging = st.dragging) ∧
    (∀ e : PointerEvent, (onPointerDown e st).snap.active = true →
      st.snap.active = true) := by
  refine ⟨?_, ?_, ?_, ?_⟩
  · intro a b hp hne hpid
    have hdel : mapDelete pid st.pointers = [a] ∨ mapDelete pid st.pointers = [b] := by
      rcases hpid with h1 | h1
      · right
        subst h1
        simp [mapDelete, hp, List.filter, Ne.symm hne]
      · left
        subst h1
        simp [mapDelete, hp, List.filter, hne]
    have hres : ∀ c : Nat × (ℝ × ℝ), mapDelete pid st.pointers = [c] →
        onPointerUp now pid st = { st with pointers := [c] } := by
      intro c hc
      simp [onPointerUp, halive, upSnapPhase, hc]
    rcases hdel with hc | hc <;> · rw [hres _ hc]; exact ⟨rfl, rfl, rfl⟩
  · intro hdel hdrag
    have hup : onPointerUp now pid st =
        upSnapPhase now { st with pointers := mapDelete pid st.pointers } := by
      unfold onPointerUp
      rw [if_pos halive]
    have hspec := upSnapPhase_eq { st with pointers := mapDelete pid st.pointers }
      now hdel hdrag
    by_cases hp : st.presets = []
    · rw [hup, hspec.1 hp]
      exact ⟨rfl, rfl, fun _ => rfl, fun hne => absurd hp hne⟩
    · obtain ⟨p, hfind⟩ :=
        findNearestPreset_nonempty st.currentYaw st.currentPitch st.presets hp
      rw [hup, hspec.2 p hfind]
      exact ⟨rfl, rfl, fun he => absurd he hp, fun _ => ⟨p, hfind, rfl⟩⟩
  · intro hn
    have hres : onPointerUp now pid st =
        { st with pointers := mapDelete pid st.pointers } := by
      unfold onPointerUp upSnapPhase
      rw [if_pos halive, if_neg]
      exact hn
    rw [hres]
    exact ⟨rfl, rfl⟩
  · intro e h
    have hmove : (onPointerDown e st).snap =
        (downDragPhase
          { st with pointers := mapSet e.pointerId (e.clientX, e.clientY) st.pointers }).snap := by
      unfold onPointerDown
      rw [if_pos halive, downPinchPhase_snap]
    rw [hmove] at h
    unfold downDragPhase at h
    by_cases h1 : ({ st with
        pointers := mapSet e.pointerId (e.clientX, e.clientY) st.pointers } :
        ViewerState).pointers.length = 1
    · rw [if_pos h1] at h
      simp at h
    · rw [if_neg h1] at h
      exact h

/-- A viewer tracking two pointers mid-gesture. -/
def twoPointerState : ViewerState :=
  { baseState with pointers := [(0, (0, 0)), (1, (5, 5))], dragging := true }

/-- A viewer tracking a single dragging pointer, with one preset. -/
def onePointerState : ViewerState :=
  { baseState with
      pointers := [(0, (0, 0))]
      dragging := true
      presets := [⟨"front", 0, 0⟩] }

/-- C7 witness: releasing one of two pointers keeps one tracked and leaves
the snap untouched; releasing the last dragging pointer exits drag mode and
activates a snap. -/
theorem pointer_release_snap_policy_witness :
    ((onPointerUp 100 0 twoPointerState).pointers.length = 1 ∧
      (onPointerUp 100 0 twoPointerState).snap = twoPointerState.snap) ∧
    ((onPointerUp 100 0 onePointerState).dragging = false ∧
      (onPointerUp 100 0 onePointerState).snap.active = true) := by
  constructor
  · have h := (pointer_release_snap_policy twoPointerState 100 0 rfl).1
      (0, (0, 0)) (1, (5, 5)) rfl (by decide) (Or.inl rfl)
    exact ⟨h.1, h.2.1⟩
  · have h := (pointer_release_snap_policy onePointerState 100 0 rfl).2.1 rfl rfl
    obtain ⟨p, -, hsnap⟩ := h.2.2.2 (List.cons_ne_nil _ _)
    refine ⟨h.1, ?_⟩
    rw [hsnap]

lemma nearestStep_lt (yaw pitch : ℝ) (acc : Preset × WithTop ℝ) (p : Preset)
    (h : (presetDistance yaw pitch p : WithTop ℝ) < acc.2) :
    nearestStep yaw pitch acc p = (p, (presetDistance yaw pitch p : WithTop ℝ)) := by
  unfold nearestStep
  rw [if_pos h]

lemma nearestStep_ge (yaw pitch : ℝ) (acc : Preset × WithTop ℝ) (p : Preset)
    (h : ¬((presetDistance yaw pitch p : WithTop ℝ) < acc.2)) :
    nearestStep yaw pitch acc p = acc := by
  unfold nearestStep
  rw [if_neg h]

lemma nearestFold_first_min (yaw pitch : ℝ) (l : List Preset) (b : Preset) :
    ∃ (k : Nat) (c : Preset),
      l.foldl (nearestStep yaw pitch) (b, (presetDistance yaw pitch b : WithTop ℝ)) =
        (c, (presetDistance yaw pitch c : WithTop ℝ)) ∧
      (b :: l)[k]? = some c ∧
      (∀ p ∈ b :: l, presetDistance yaw pitch c ≤ presetDistance yaw pitch p) ∧
      (∀ p ∈ (b :: l).take k, presetDistance yaw pitch c < presetDistance yaw pitch p) := by
  induction l generalizing b with
  | nil =>
    refine ⟨0, b, rfl, rfl, ?_, ?_⟩
    · intro p hp
      rw [List.mem_singleton] at hp
      rw [hp]
    · intro p hp
      simp at hp
  | cons q l ih =>
    by_cases hqb : presetDistance yaw pitch q < presetDistance yaw pitch b
    · have hstep : nearestStep yaw pitch (b, (presetDistance yaw pitch b : WithTop ℝ)) q =
          (q, (presetDistance yaw pitch q : WithTop ℝ)) :=
        nearestStep_lt yaw pitch _ q (WithTop.coe_lt_coe.mpr hqb)
      obtain ⟨k, c, hfold, hget, hmin, hstrict⟩ := ih q
      have hcq : presetDistance yaw pitch c ≤ presetDistance yaw pitch q :=
        hmin q (List.mem_cons_self q l)
      refine ⟨k + 1, c, ?_, ?_, ?_, ?_⟩
      · rw [List.foldl_cons, hstep]
        exact hfold
      · rw [List.getElem?_cons_succ]
        exact hget
      · intro p hp
        rcases List.mem_cons.mp hp with hpb | hpl
        · rw [hpb]
          linarith
        · exact hmin p hpl
      · intro p hp
        rw [List.take_succ_cons] at hp
        rcases List.mem_cons.mp hp with hpb | hpl
        · rw [hpb]
          linarith
        · exact hstrict p hpl
    · have hstep : nearestStep yaw pitch (b, (presetDistance yaw pitch b : WithTop ℝ)) q =
          (b, (presetDistance yaw pitch b : WithTop ℝ)) := by
        refine nearestStep_ge yaw pitch _ q ?_
        rw [WithTop.coe_lt_coe]
        exact hqb
      have hbq : presetDistance yaw pitch b ≤ presetDistance yaw pitch q := not_lt.mp hqb
      obtain ⟨k, c, hfold, hget, hmin, hstrict⟩ := ih b
      have hcb : presetDistance yaw pitch c ≤ presetDistance yaw pitch b :=
        hmin b (List.mem_cons_self b l)
      cases k with
      | zero =>
        have hcb' : c = b := by
          rw [List.getElem?_cons_zero] at hget
          exact (Option.some_injective _ hget).symm
        refine ⟨0, c, ?_, ?_, ?_, ?_⟩
        · rw [List.foldl_cons, hstep]
          exact hfold
        · rw [List.getElem?_cons_zero, hcb']
        · intro p hp
          rcases List.mem_cons.mp hp with hpb | hpl
          · rw [hpb, hcb']
          · rcases List.mem_cons.mp hpl with hpq | hpl'
            · rw [hpq, hcb']
              exact hbq
            · exact hmin p (List.mem_cons_of_mem b hpl')
        · intro p hp
          simp at hp
      | succ j =>
        refine ⟨j + 2, c, ?_, ?_, ?_, ?_⟩
        · rw [List.foldl_cons, hstep]
          exact hfold
        · rw [List.getElem?_cons_succ, List.getElem?_cons_succ]
          rw [List.getElem?_cons_succ] at hget
          exact hget
        · intro p hp
          rcases List.mem_cons.mp hp with hpb | hpl
          · rw [hpb]
            exact hcb
          · rcases List.mem_cons.mp hpl with hpq | hpl'
            · rw [hpq]
              linarith
            · exact hmin p (List.mem_cons_of_mem b hpl')
        · intro p hp
          have hbmem : b ∈ (b :: l).take (j + 1) := by
            rw [List.take_succ_cons]
            exact List.mem_cons_self b (l.take j)
          have hcbs : presetDistance yaw pitch c < presetDistance yaw pitch b :=
            hstrict b hbmem
          rw [List.take_succ_cons, List.take_succ_cons] at hp
          rcases List.mem_cons.mp hp with hpb | hpl
          · rw [hpb]
            exact hcbs
          · rcases List.mem_cons.mp hpl with hpq | hpl'
            · rw [hpq]
              linarith
            · refine hstrict p ?_
              rw [List.take_succ_cons]
              exact List.mem_cons_of_mem b hpl'

lemma presetDistance_pitch0 (y py : ℝ) (nm : String) :
    presetDistance y 0 ⟨nm, py, 0⟩ = |wrapAngle (y - py)| := by
  unfold presetDistance
  norm_num
  exact Real.sqrt_sq_eq_abs _

/-- C4: `findNearestPreset` measures each preset by
`hypot(wrap(yaw − preset.yaw), pitch − preset.pitch)` — wrap-aware in yaw,
unwrapped in pitch — and returns the first preset of minimum distance
(`null` exactly on an empty list); with the built-in presets it returns
`"right"` at `yaw = π/2 + 0.01, pitch = 0` and `"back"` at `yaw = π`. -/
theorem nearest_preset_spec :
    (∀ yaw pitch : ℝ, findNearestPreset yaw pitch [] = none) ∧
    (∀ (yaw pitch : ℝ) (presets : List Preset), presets ≠ [] →
      ∃ q, findNearestPreset yaw pitch presets = some q) ∧
    (∀ (yaw pitch : ℝ) (presets : List Preset) (q : Preset),
      findNearestPreset yaw pitch presets = some q →
      ∃ k : Nat, presets[k]? = some q ∧
        (∀ p ∈ presets, presetDistance yaw pitch q ≤ presetDistance yaw pitch p) ∧
        (∀ p ∈ presets.take k,
          presetDistance yaw pitch q < presetDistance yaw pitch p)) ∧
    findNearestPreset (Real.pi / 2 + 0.01) 0 DEFAULT_PRESETS =
      some ⟨"right", Real.pi / 2, 0⟩ ∧
    findNearestPreset Real.pi 0 DEFAULT_PRESETS = some ⟨"back", Real.pi, 0⟩ := by
  have hpi3 := Real.pi_gt_three
  have hpi4 := Real.pi_lt_d2
  refine ⟨fun _ _ => rfl, ?_, ?_, ?_, ?_⟩
  · intro yaw pitch presets h
    cases presets with
    | nil => exact absurd rfl h
    | cons b l => exact ⟨_, rfl⟩
  · intro yaw pitch presets q hq
    cases presets with
    | nil => simp [findNearestPreset] at hq
    | cons b l =>
      simp only [findNearestPreset] at hq
      rw [List.foldl_cons,
          nearestStep_lt yaw pitch (b, (⊤ : WithTop ℝ)) b (WithTop.coe_lt_top _)] at hq
      obtain ⟨k, c, hfold, hget, hmin, hstrict⟩ := nearestFold_first_min yaw pitch l b
      rw [hfold] at hq
      have hq' : c = q := by
        have := Option.some_injective _ hq
        exact this
      subst hq'
      exact ⟨k, hget, hmin, hstrict⟩
  · have hdf : presetDistance (Real.pi / 2 + 0.01) 0 ⟨"front", 0, 0⟩ =
        Real.pi / 2 + 0.01 := by
      rw [presetDistance_pitch0,
          show Real.pi / 2 + 0.01 - 0 = Real.pi / 2 + 0.01 by ring,
          wrapAngle_eq_self _ (by linarith) (by linarith)]
      exact abs_of_pos (by linarith)
    have hdb : presetDistance (Real.pi / 2 + 0.01) 0 ⟨"back", Real.pi, 0⟩ =
        Real.pi / 2 - 0.01 := by
      rw [presetDistance_pitch0,
          show Real.pi / 2 + 0.01 - Real.pi = -(Real.pi / 2 - 0.01) by ring,
          wrapAngle_eq_self _ (by linarith) (by linarith), abs_neg]
      exact abs_of_pos (by linarith)
    have hdl : presetDistance (Real.pi / 2 + 0.01) 0 ⟨"left", -(Real.pi / 2), 0⟩ =
        Real.pi - 0.01 := by
      rw [presetDistance_pitch0,
          show Real.pi / 2 + 0.01 - -(Real.pi / 2) = Real.pi + 0.01 by ring,
          wrapAngle_of_gt_pi _ (by linarith) (by linarith),
          show Real.pi + 0.01 - Real.pi * 2 = -(Real.pi - 0.01) by ring, abs_neg]
      exact abs_of_pos (by linarith)
    have hdr : presetDistance (Real.pi / 2 + 0.01) 0 ⟨"right", Real.pi / 2, 0⟩ =
        0.01 := by
      rw [presetDistance_pitch0,
          show Real.pi / 2 + 0.01 - Real.pi / 2 = 0.01 by ring,
          wrapAngle_eq_self _ (by linarith) (by linarith)]
      exact abs_of_pos (by norm_num)
    simp only [findNearestPreset, DEFAULT_PRESETS]
    rw [List.foldl_cons,
        nearestStep_lt (Real.pi / 2 + 0.01) 0 _ ⟨"front", 0, 0⟩ (WithTop.coe_lt_top _),
        List.foldl_cons,
        nearestStep_lt (Real.pi / 2 + 0.01) 0 _ ⟨"back", Real.pi, 0⟩
          (by rw [WithTop.coe_lt_coe, hdb, hdf]; linarith),
        List.foldl_cons,
        nearestStep_ge (Real.pi / 2 + 0.01) 0 _ ⟨"left", -(Real.pi / 2), 0⟩
          (by rw [WithTop.coe_lt_coe, hdl, hdb, not_lt]; linarith),
        List.foldl_cons,
        nearestStep_lt (Real.pi / 2 + 0.01) 0 _ ⟨"right", Real.pi / 2, 0⟩
          (by rw [WithTop.coe_lt_coe, hdr, hdb]; linarith),
        List.foldl_nil]
  · have hdf : presetDistance Real.pi 0 ⟨"front", 0, 0⟩ = Real.pi := by
      rw [presetDistance_pitch0, show Real.pi - 0 = Real.pi by ring,
          wrapAngle_eq_self _ (by linarith) le_rfl]
      exact abs_of_pos (by linarith)
    have hdb : presetDistance Real.pi 0 ⟨"back", Real.pi, 0⟩ = 0 := by
      rw [presetDistance_pitch0, show Real.pi - Real.pi = 0 by ring,
          wrapAngle_eq_self _ (by linarith) (by linarith)]
      exact abs_zero
    have hdl : presetDistance Real.pi 0 ⟨"left", -(Real.pi / 2), 0⟩ = Real.pi / 2 := by
      rw [presetDistance_pitch0,
          show Real.pi - -(Real.pi / 2) = Real.pi + Real.pi / 2 by ring,
          wrapAngle_of_gt_pi _ (by linarith) (by linarith),
          show Real.pi + Real.pi / 2 - Real.pi * 2 = -(Real.pi / 2) by ring, abs_neg]
      exact abs_of_pos (by linarith)
    have hdr : presetDistance Real.pi 0 ⟨"right", Real.pi / 2, 0⟩ = Real.pi / 2 := by
      rw [presetDistance_pitch0, show Real.pi - Real.pi / 2 = Real.pi / 2 by ring,
          wrapAngle_eq_self _ (by linarith) (by linarith)]
      exact abs_of_pos (by linarith)
    simp only [findNearestPreset, DEFAULT_PRESETS]
    rw [List.foldl_cons,
        nearestStep_lt Real.pi 0 _ ⟨"front", 0, 0⟩ (WithTop.coe_lt_top _),
        List.foldl_cons,
        nearestStep_lt Real.pi 0 _ ⟨"back", Real.pi, 0⟩
          (by rw [WithTop.coe_lt_coe, hdb, hdf]; linarith),
        List.foldl_cons,
        nearestStep_ge Real.pi 0 _ ⟨"left", -(Real.pi / 2), 0⟩
          (by rw [WithTop.coe_lt_coe, hdl, hdb, not_lt]; linarith),
        List.foldl_cons,
        nearestStep_ge Real.pi 0 _ ⟨"right", Real.pi / 2, 0⟩
          (by rw [WithTop.coe_lt_coe, hdr, hdb, not_lt]; linarith),
        List.foldl_nil]

/-- C4 witness: the first-minimum characterisation applied to a concrete
nonempty preset list. -/
theorem nearest_preset_spec_witness :
    ∃ (q : Preset) (k : Nat),
      findNearestPreset 0 0 [⟨"front", 0, 0⟩] = some q ∧
      ([⟨"front", 0, 0⟩] : List Preset)[k]? = some q ∧
      ∀ p ∈ ([⟨"front", 0, 0⟩] : List Preset),
        presetDistance 0 0 q ≤ presetDistance 0 0 p := by
  obtain ⟨q, hq⟩ := nearest_preset_spec.2.1 0 0 [⟨"front", 0, 0⟩] (List.cons_ne_nil _ _)
  obtain ⟨k, hk, hmin, -⟩ := nearest_preset_spec.2.2.1 0 0 [⟨"front", 0, 0⟩] q hq
  exact ⟨q, k, hq, hk, hmin⟩

end





